import Mathlib

/-!
Verification of the WildBerries catalogue/product pipeline (`src/wbparser.py`).

The Python program is embedded shallowly:

* A catalogue JSON node (a dict with a mandatory `name`, an optional
  `children` list and an optional `url`) becomes the nested inductive
  `Category`.  The two constructors record whether the `'children'` key is
  present (`withChildren`, possibly with an empty list) or absent
  (`noChildren`), exactly the distinction tested by `'children' in category`.
* `process_catalogue` / the inner closure `traverse_json` become pure
  functions returning `Option (List Entry)`; `none` models the `KeyError`
  raised when a leaf dict lacks the `'url'` key (`category['url']`).
* HTTP traffic is modelled by an explicit environment `Env`: the catalogue
  endpoint is a stream of responses indexed by request number (the code
  issues exactly one request, consuming index 0), the per-category product
  endpoint maps a category url fragment to a response, and the database
  collaborator is a predicate saying whether the i-th insert call succeeds.
  A response either signals a transport failure (`netError`, modelling a
  raised `requests.exceptions.RequestException`) or carries an HTTP status
  and a body; a body is `Option`-wrapped to model `.json()` decoding
  failure, and a decoded product-listing body has an optional `products`
  field, `none` modelling a JSON object without that key.
* Exceptions become `Except Err`; `requests.Response.raise_for_status`
  raises exactly for statuses in `[400, 600)`.
* `main` sequences `parse_product_cards`, `write_to_database`,
  `write_to_excel` and is embedded as a function producing the final run
  state (accumulated cards, records actually inserted into the database,
  whether the spreadsheet write was reached) plus the first uncaught error.
-/

/-- One record of the flattened catalogue: the dict
`{'name': ..., 'url': ...}` appended by `traverse_json`. -/
structure Entry where
  name : String
  url  : String
deriving Repr, DecidableEq

/-- A catalogue JSON node.  `noChildren` is a dict without the `'children'`
key; `withChildren` has the key present (its list may be empty).  `name` is
mandatory (the code reads `category['name']` unconditionally and the spec
states the field is present on every node); `url` is optional, matching
`category['url']` which raises `KeyError` when absent. -/
inductive Category : Type where
  | noChildren (name : String) (url : Option String) : Category
  | withChildren (name : String) (children : List Category) (url : Option String) : Category

mutual
/-- Embedding of the closure `traverse_json(category, parent_name="")` in
`process_catalogue` (src/wbparser.py lines 74-79): if `'children'` is
present, recurse into each child with the prefix extended by this node's
name and `' -> '`; otherwise append one entry built from the accumulated
prefix plus this node's name, and the node's url.  `none` models the
`KeyError` raised when a childless node has no `'url'` key. -/
def traverse_json : Category → String → Option (List Entry)
  | .noChildren name url, parent_name =>
    match url with
    | some u => some [⟨parent_name ++ name, u⟩]
    | none => none
  | .withChildren name children _, parent_name =>
    traverseChildren children (parent_name ++ name ++ " -> ")

/-- The `for child in category['children']` loop of `traverse_json`,
visiting the children in list order and concatenating their entries. -/
def traverseChildren : List Category → String → Option (List Entry)
  | [], _ => some []
  | c :: cs, p =>
    match traverse_json c p, traverseChildren cs p with
    | some es, some rest => some (es ++ rest)
    | _, _ => none
end

/-- Embedding of `WildBerriesParser.process_catalogue` (lines 59-83):
traverse the whole catalogue starting from the empty prefix. -/
def process_catalogue (catalogue : Category) : Option (List Entry) :=
  traverse_json catalogue ""

/-- Concatenation of a list of ancestor names, each followed by the
separator token `' -> '` — the spec's description of a path prefix. -/
def sepJoin : List String → String
  | [] => ""
  | a :: as => a ++ " -> " ++ sepJoin as

mutual
/-- Modelled from the spec: one Flattened Category per leaf node, in
depth-first pre-order, whose name is the concatenation of all ancestor
names from the root down, each followed by `' -> '`, ending in the leaf's
own name, and whose url is the leaf's url (leaves are assumed to carry a
url; `getD` supplies a dummy for the out-of-contract case). -/
def specLeaves : Category → List String → List Entry
  | .noChildren name url, anc => [⟨sepJoin anc ++ name, url.getD ""⟩]
  | .withChildren name cs _, anc => specLeavesList cs (anc ++ [name])

/-- Leaves of a forest, in order, each child visited with the same ancestor
path. -/
def specLeavesList : List Category → List String → List Entry
  | [], _ => []
  | c :: cs, anc => specLeaves c anc ++ specLeavesList cs anc
end

mutual
/-- Number of leaf nodes (nodes without a `'children'` key) in a tree. -/
def leafCount : Category → Nat
  | .noChildren _ _ => 1
  | .withChildren _ cs _ => leafCountList cs

/-- Number of leaf nodes in a forest. -/
def leafCountList : List Category → Nat
  | [] => 0
  | c :: cs => leafCount c + leafCountList cs
end

mutual
/-- Every leaf node of the tree carries a url. -/
def leavesHaveUrl : Category → Bool
  | .noChildren _ url => url.isSome
  | .withChildren _ cs _ => leavesHaveUrlList cs

/-- Every leaf node of the forest carries a url. -/
def leavesHaveUrlList : List Category → Bool
  | [] => true
  | c :: cs => leavesHaveUrl c && leavesHaveUrlList cs
end

/-- Outcome of one `requests.get` call: either the call raises a
`requests.exceptions.RequestException` (`netError`), or it yields a
response with an HTTP status code and a body of type `α`. -/
inductive ReqResult (α : Type) where
  | netError : ReqResult α
  | response (status : Nat) (body : α) : ReqResult α
deriving Repr, DecidableEq

/-- A decoded product-listing JSON body: `products` is `none` when the JSON
object has no `'products'` key, so that `response['products']` raises
`KeyError`. -/
structure ProductListing (P : Type) where
  products : Option (List P)
deriving Repr, DecidableEq

/-- The Python exceptions that can escape the pipeline. -/
inductive Err where
  | requestException : Err
  | httpError (status : Nat) : Err
  | jsonDecodeError : Err
  | keyError (k : String) : Err
  | dbError : Err
deriving Repr, DecidableEq

/-- The external world of one run, with product records drawn from an
opaque type `P`.  `catalogue i` is the response to the i-th GET of
`https://search.wb.ru/catalog.json` (the code issues exactly one such
request per call, consuming index 0 — no retry).  `products u` is the
response to GET `https://search.wb.ru/catalog/{u}`.  Each body is `none`
when `.json()` would fail to decode it.  `dbOk i` tells whether the i-th
`chroma_db.insert_product_card` call succeeds. -/
structure Env (P : Type) where
  catalogue : Nat → ReqResult (Option Category)
  products : String → ReqResult (Option (ProductListing P))
  dbOk : Nat → Bool

/-- Embedding of `requests.Response.raise_for_status`: raises an
`HTTPError` exactly when the status code is in `[400, 600)`. -/
def raise_for_status (status : Nat) : Except Err Unit :=
  if 400 ≤ status ∧ status < 600 then .error (.httpError status) else .ok ()

/-- Embedding of `WildBerriesParser.download_current_catalogue`
(lines 41-57): one GET of the catalogue url, then `raise_for_status`, then
`.json()`. -/
def download_current_catalogue {P : Type} (env : Env P) : Except Err Category :=
  match env.catalogue 0 with
  | .netError => .error .requestException
  | .response status body =>
    match raise_for_status status with
    | .error e => .error e
    | .ok _ =>
      match body with
      | none => .error .jsonDecodeError
      | some c => .ok c

/-- Embedding of one iteration body of the loop in `parse_product_cards`
(lines 97-102): GET the per-category url and decode
`response['products']`.  Note the source calls `.json()` directly on the
result of `requests.get` with NO `raise_for_status`, so the HTTP status of
the response is never inspected here. -/
def fetch_category_products {P : Type} (env : Env P) (e : Entry) :
    Except Err (List P) :=
  match env.products e.url with
  | .netError => .error .requestException
  | .response _ body =>
    match body with
    | none => .error .jsonDecodeError
    | some listing =>
      match listing.products with
      | none => .error (.keyError "products")
      | some ps => .ok ps

/-- The `for category in catalogue` loop of `parse_product_cards`,
extending the accumulated `self.product_cards` with each category's
products in order and aborting at the first exception. -/
def parse_loop {P : Type} (env : Env P) :
    List Entry → List P → Except Err (List P)
  | [], acc => .ok acc
  | e :: es, acc =>
    match fetch_category_products env e with
    | .error err => .error err
    | .ok ps => parse_loop env es (acc ++ ps)

/-- Embedding of `WildBerriesParser.parse_product_cards` (lines 85-102):
download the catalogue, flatten it (a leaf without `'url'` raises
`KeyError`), then loop over the flattened categories extending
`product_cards` (passed in as the current value of the
`self.product_cards` attribute; the new value is returned). -/
def parse_product_cards {P : Type} (env : Env P) (product_cards : List P) :
    Except Err (List P) :=
  match download_current_catalogue env with
  | .error e => .error e
  | .ok root =>
    match process_catalogue root with
    | none => .error (.keyError "url")
    | some catalogue => parse_loop env catalogue product_cards

/-- The insert loop of `WildBerriesParser.write_to_database`
(lines 104-115), with `i` the number of insert calls already made: returns
the records actually inserted and the error that aborted the loop, if
any. -/
def write_db_loop {P : Type} (dbOk : Nat → Bool) :
    Nat → List P → List P × Option Err
  | _, [] => ([], none)
  | i, c :: cs =>
    if dbOk i then
      let r := write_db_loop dbOk (i + 1) cs
      (c :: r.1, r.2)
    else ([], some .dbError)

/-- Embedding of `WildBerriesParser.write_to_database`: insert each
product card individually, in sequence order, stopping at the first
failure. -/
def write_to_database {P : Type} (env : Env P) (cards : List P) :
    List P × Option Err :=
  write_db_loop env.dbOk 0 cards

/-- Observable outcome of one `main` run: the final `product_cards`, the
records actually inserted into the database, and whether
`write_to_excel` was reached. -/
structure RunState (P : Type) where
  product_cards : List P
  dbInserts : List P
  excelWritten : Bool
deriving Repr, DecidableEq

/-- Embedding of `WildBerriesParser.main` (lines 139-151):
`parse_product_cards`; then `write_to_database`; then `write_to_excel`.
An uncaught exception at any step halts the run there, so the returned
state records exactly the side effects performed before the first error
(the second component). -/
def WildBerriesParser.main {P : Type} (env : Env P) : RunState P × Option Err :=
  match parse_product_cards env [] with
  | .error e => (⟨[], [], false⟩, some e)
  | .ok cards =>
    match write_to_database env cards with
    | (inserted, some e) => (⟨cards, inserted, false⟩, some e)
    | (inserted, none) => (⟨cards, inserted, true⟩, none)

/-- The body content of a response, forgetting the HTTP status (used to
state that `parse_product_cards` never looks at a product response's
status). -/
def respBody {α : Type} : ReqResult α → Option α
  | .netError => none
  | .response _ b => some b

/-- A response that decoded to a JSON object lacking the `'products'`
key. -/
def missingProducts {P : Type} :
    ReqResult (Option (ProductListing P)) → Bool
  | .response _ (some l) => l.products.isNone
  | _ => false

/-- The products list carried by a well-formed product-listing response
(dummy `[]` otherwise). -/
def productsOf {P : Type} : ReqResult (Option (ProductListing P)) → List P
  | .response _ (some ⟨some ps⟩) => ps
  | _ => []

/-- The spec's worked scenario tree: root `Root` with leaf child `Shoes`
and internal child `Bags` containing leaf `Totes`. -/
def scenarioTree : Category :=
  .withChildren "Root"
    [ .noChildren "Shoes" (some "shoes123"),
      .withChildren "Bags" [ .noChildren "Totes" (some "totes55") ] none ] none

/-- A world whose catalogue request yields HTTP 404 with an undecodable
body. -/
def envDown404 : Env Nat :=
  ⟨fun _ => .response 404 none, fun _ => .netError, fun _ => true⟩

/-- A world whose catalogue request succeeds with a one-leaf catalogue. -/
def envDownOk : Env Nat :=
  ⟨fun _ => .response 200 (some (.noChildren "A" (some "a"))),
   fun _ => .netError, fun _ => true⟩

/-- A world with a one-leaf catalogue whose product request returns HTTP
404, yet with a body that decodes to `{'products': [7]}`. -/
def envC3 : Env Nat :=
  ⟨fun _ => .response 200 (some (.noChildren "Cat" (some "cat1"))),
   fun u => if u = "cat1" then .response 404 (some ⟨some [7]⟩) else .netError,
   fun _ => true⟩

/-- The world `envC3` with every product response's status replaced by
200; the bodies are unchanged. -/
def envC3ok : Env Nat :=
  ⟨fun _ => .response 200 (some (.noChildren "Cat" (some "cat1"))),
   fun u => if u = "cat1" then .response 200 (some ⟨some [7]⟩) else .netError,
   fun _ => true⟩

/-- A world with a one-leaf catalogue whose product response decodes to a
JSON object with no `'products'` key. -/
def envC4 : Env Nat :=
  ⟨fun _ => .response 200 (some (.noChildren "Cat" (some "cat1"))),
   fun u => if u = "cat1" then .response 200 (some ⟨none⟩) else .netError,
   fun _ => true⟩

/-- A world with two flattened categories whose product endpoints return
`[1, 2]` and `[3]` respectively. -/
def envC5 : Env Nat :=
  ⟨fun _ => .response 200 (some (.withChildren "R"
      [ .noChildren "A" (some "c1"), .noChildren "B" (some "c2") ] none)),
   fun u =>
     if u = "c1" then .response 200 (some ⟨some [1, 2]⟩)
     else if u = "c2" then .response 200 (some ⟨some [3]⟩)
     else .netError,
   fun _ => true⟩

/-- A world with one category returning products `[5, 6]`, where the first
database insert succeeds and every later one fails. -/
def envC6 : Env Nat :=
  ⟨fun _ => .response 200 (some (.noChildren "Cat" (some "c1"))),
   fun u => if u = "c1" then .response 200 (some ⟨some [5, 6]⟩) else .netError,
   fun i => i == 0⟩

theorem sepJoin_snoc (as : List String) (a : String) :
    sepJoin (as ++ [a]) = sepJoin as ++ (a ++ " -> ") := by
  induction as with
  | nil => simp [sepJoin, String.append_assoc, String.empty_append, String.append_empty]
  | cons x xs ih => simp [sepJoin, ih, String.append_assoc]

mutual
theorem traverse_eq_spec (c : Category) (anc : List String)
    (h : leavesHaveUrl c = true) :
    traverse_json c (sepJoin anc) = some (specLeaves c anc) := by
  cases c with
  | noChildren name url =>
    cases url with
    | none => simp [leavesHaveUrl] at h
    | some u => simp [traverse_json, specLeaves]
  | withChildren name cs url =>
    have h2 : leavesHaveUrlList cs = true := by simpa [leavesHaveUrl] using h
    have h3 := traverseChildren_eq_spec cs (anc ++ [name]) h2
    rw [sepJoin_snoc] at h3
    simpa [traverse_json, specLeaves, String.append_assoc] using h3

theorem traverseChildren_eq_spec (cs : List Category) (anc : List String)
    (h : leavesHaveUrlList cs = true) :
    traverseChildren cs (sepJoin anc) = some (specLeavesList cs anc) := by
  cases cs with
  | nil => simp [traverseChildren, specLeavesList]
  | cons c rest =>
    have hc : leavesHaveUrl c = true := by
      simp [leavesHaveUrlList, Bool.and_eq_true] at h; exact h.1
    have hr : leavesHaveUrlList rest = true := by
      simp [leavesHaveUrlList, Bool.and_eq_true] at h; exact h.2
    rw [traverseChildren, traverse_eq_spec c anc hc, traverseChildren_eq_spec rest anc hr]
    simp [specLeavesList]
end

mutual
theorem specLeaves_length (c : Category) (anc : List String) :
    (specLeaves c anc).length = leafCount c := by
  cases c with
  | noChildren name url => simp [specLeaves, leafCount]
  | withChildren name cs url =>
    simpa [specLeaves, leafCount] using specLeavesList_length cs (anc ++ [name])

theorem specLeavesList_length (cs : List Category) (anc : List String) :
    (specLeavesList cs anc).length = leafCountList cs := by
  cases cs with
  | nil => simp [specLeavesList, leafCountList]
  | cons c rest =>
    simp [specLeavesList, leafCountList, specLeaves_length c anc,
      specLeavesList_length rest anc]
end

theorem scenarioTree_flattens :
    process_catalogue scenarioTree =
      some [⟨"Root -> Shoes", "shoes123"⟩, ⟨"Root -> Bags -> Totes", "totes55"⟩] := by
  decide

/-- C1: for every catalogue tree whose leaf nodes (nodes without a
`'children'` field) all carry a url, `process_catalogue` succeeds and
returns exactly the depth-first pre-order list of leaf entries, each
entry's name being the concatenation of all ancestor names from the root
down, each followed by `' -> '`, ending in the leaf's own name, and each
entry's url being that leaf's url (this is `specLeaves`, whose length is
the number of leaves). -/
theorem C1_flatten_matches_spec (c : Category) (h : leavesHaveUrl c = true) :
    process_catalogue c = some (specLeaves c []) ∧
    (specLeaves c []).length = leafCount c := by
  refine ⟨?_, specLeaves_length c []⟩
  have h1 := traverse_eq_spec c [] h
  simpa [process_catalogue, sepJoin] using h1

theorem C1_flatten_matches_spec_witness :
    leavesHaveUrl scenarioTree = true ∧
    (process_catalogue scenarioTree = some (specLeaves scenarioTree []) ∧
      (specLeaves scenarioTree []).length = leafCount scenarioTree) :=
  ⟨by decide, C1_flatten_matches_spec scenarioTree (by decide)⟩

/-- C2 fails on the code: a node whose `'children'` key is present but
empty is NOT treated as a leaf.  At the concrete input
`{name: "Shoes", children: [], url: "shoes123"}` the code emits no entry
at all, not the entry `{name: "Shoes", url: "shoes123"}` the claim
requires. -/
theorem C2_counterexample :
    process_catalogue (.withChildren "Shoes" [] (some "shoes123")) = some [] ∧
    process_catalogue (.withChildren "Shoes" [] (some "shoes123")) ≠
      some [⟨"Shoes", "shoes123"⟩] := by
  decide

/-- C2 amended: a node whose `'children'` field is present but an empty
sequence is treated as an internal node with no children: the traversal
iterates over the empty child list and emits nothing, and the node's own
name and url are never used. -/
theorem C2_empty_children_emit_nothing (name : String) (url : Option String)
    (p : String) :
    traverse_json (.withChildren name [] url) p = some [] ∧
    process_catalogue (.withChildren name [] url) = some [] := by
  constructor <;> simp [process_catalogue, traverse_json, traverseChildren]

/-- C8: a node carrying both a non-empty `'children'` list and a url takes
the children branch: the traversal of the node is exactly the traversal of
its children with the prefix extended by the node's name and `' -> '` (so
no entry is emitted for the node itself), and the node's url is ignored
(replacing it by `none` changes nothing). -/
theorem C8_children_take_precedence (name u p : String) (cs : List Category)
    (h : cs ≠ []) :
    traverse_json (.withChildren name cs (some u)) p
        = traverseChildren cs (p ++ name ++ " -> ") ∧
    traverse_json (.withChildren name cs (some u)) p
        = traverse_json (.withChildren name cs none) p := by
  constructor <;> simp [traverse_json]

theorem C8_children_take_precedence_witness :
    ([Category.noChildren "Totes" (some "totes55")] ≠ ([] : List Category)) ∧
    (traverse_json
        (.withChildren "Bags" [.noChildren "Totes" (some "totes55")] (some "ignored")) ""
        = traverseChildren [.noChildren "Totes" (some "totes55")] ("" ++ "Bags" ++ " -> ") ∧
      traverse_json
        (.withChildren "Bags" [.noChildren "Totes" (some "totes55")] (some "ignored")) ""
        = traverse_json (.withChildren "Bags" [.noChildren "Totes" (some "totes55")] none) "") :=
  ⟨by simp,
    C8_children_take_precedence "Bags" "ignored" ""
      [Category.noChildren "Totes" (some "totes55")] (by simp)⟩

/-- C9: when the root itself has no `'children'` field (and carries a url),
`process_catalogue` returns exactly one entry whose name is the root's own
name with no separator token prepended. -/
theorem C9_root_leaf_no_separator (name u : String) :
    process_catalogue (.noChildren name (some u)) = some [⟨name, u⟩] := by
  simp [process_catalogue, traverse_json, String.empty_append]

theorem download_congr {P : Type} (env env2 : Env P)
    (h : env.catalogue 0 = env2.catalogue 0) :
    download_current_catalogue env = download_current_catalogue env2 := by
  unfold download_current_catalogue
  rw [h]

theorem fetch_congr {P : Type} (env env2 : Env P) (e : Entry)
    (h : respBody (env.products e.url) = respBody (env2.products e.url)) :
    fetch_category_products env e = fetch_category_products env2 e := by
  unfold fetch_category_products
  cases h1 : env.products e.url with
  | netError =>
    cases h2 : env2.products e.url with
    | netError => rfl
    | response s b => rw [h1, h2] at h; simp [respBody] at h
  | response s b =>
    cases h2 : env2.products e.url with
    | netError => rw [h1, h2] at h; simp [respBody] at h
    | response s2 b2 =>
      rw [h1, h2] at h
      simp only [respBody, Option.some.injEq] at h
      rw [h]

theorem parse_loop_congr {P : Type} (env env2 : Env P)
    (hprod : ∀ u, respBody (env.products u) = respBody (env2.products u)) :
    ∀ es acc, parse_loop env es acc = parse_loop env2 es acc := by
  intro es
  induction es with
  | nil => intro acc; rfl
  | cons e rest ih =>
    intro acc
    have hf := fetch_congr env env2 e (hprod e.url)
    simp only [parse_loop, hf]
    cases fetch_category_products env2 e with
    | error err => rfl
    | ok ps => exact ih (acc ++ ps)

theorem parse_loop_shift {P : Type} (env : Env P) (es : List Entry) (acc : List P) :
    parse_loop env es acc =
      match parse_loop env es [] with
      | .ok t => .ok (acc ++ t)
      | .error e => .error e := by
  induction es generalizing acc with
  | nil => simp [parse_loop]
  | cons e rest ih =>
    cases hf : fetch_category_products env e with
    | error err => simp [parse_loop, hf]
    | ok ps =>
      simp only [parse_loop, hf]
      rw [ih (acc ++ ps), ih ([] ++ ps)]
      cases parse_loop env rest [] with
      | error e2 => simp
      | ok t => simp

theorem parse_loop_all_ok {P : Type} (env : Env P) (es : List Entry)
    (acc : List P)
    (h : ∀ c ∈ es, ∃ s ps, env.products c.url = .response s (some ⟨some ps⟩)) :
    parse_loop env es acc =
      .ok (acc ++ (es.map (fun c => productsOf (env.products c.url))).flatten) := by
  induction es generalizing acc with
  | nil => simp [parse_loop]
  | cons e rest ih =>
    obtain ⟨s, ps, hs⟩ := h e (List.mem_cons_self e rest)
    have hf : fetch_category_products env e = .ok ps := by
      simp [fetch_category_products, hs]
    have hpo : productsOf (env.products e.url) = ps := by
      rw [hs]; rfl
    have hrest : ∀ c ∈ rest, ∃ s2 ps2,
        env.products c.url = .response s2 (some ⟨some ps2⟩) :=
      fun c hc => h c (List.mem_cons_of_mem e hc)
    simp only [parse_loop, hf]
    rw [ih (acc ++ ps) hrest]
    simp [hpo, List.append_assoc]

theorem fetch_ok_not_missing {P : Type} (env : Env P) (x : Entry) (ps : List P)
    (h : fetch_category_products env x = .ok ps) :
    missingProducts (env.products x.url) = false := by
  cases hr : env.products x.url with
  | netError => simp [fetch_category_products, hr] at h
  | response s body =>
    cases body with
    | none => simp [fetch_category_products, hr] at h
    | some l =>
      cases hl : l.products with
      | none => simp [fetch_category_products, hr, hl] at h
      | some ps2 => simp [missingProducts, hl]

theorem parse_loop_error_of_missing {P : Type} (env : Env P)
    (es : List Entry) (acc : List P) (c : Entry) (hm : c ∈ es)
    (hp : missingProducts (env.products c.url) = true) :
    ∃ e, parse_loop env es acc = .error e := by
  induction es generalizing acc with
  | nil => cases hm
  | cons x rest ih =>
    cases hf : fetch_category_products env x with
    | error err => exact ⟨err, by simp [parse_loop, hf]⟩
    | ok ps =>
      rcases List.mem_cons.mp hm with rfl | hm2
      · rw [fetch_ok_not_missing env c ps hf] at hp
        cases hp
      · obtain ⟨e, he⟩ := ih (acc ++ ps) hm2
        exact ⟨e, by simp [parse_loop, hf, he]⟩

/-- C7: `download_current_catalogue` raises whenever the network call
fails (`RequestException`) or the HTTP status indicates failure
(`raise_for_status`); on success it returns the response body parsed as
JSON; and it depends only on the single catalogue response it requests
(index 0 of the stream), so a failure is propagated to the caller with no
retry. -/
theorem C7_download_raises_or_returns (P : Type) (env env2 : Env P) :
    (env.catalogue 0 = .netError →
      download_current_catalogue env = .error .requestException) ∧
    (∀ s b, env.catalogue 0 = .response s b → 400 ≤ s → s < 600 →
      download_current_catalogue env = .error (.httpError s)) ∧
    (∀ s c, env.catalogue 0 = .response s (some c) → ¬ (400 ≤ s ∧ s < 600) →
      download_current_catalogue env = .ok c) ∧
    (env.catalogue 0 = env2.catalogue 0 →
      download_current_catalogue env = download_current_catalogue env2) := by
  refine ⟨?_, ?_, ?_, download_congr env env2⟩
  · intro h; unfold download_current_catalogue; rw [h]
  · intro s b h h4 h6
    unfold download_current_catalogue
    rw [h]
    simp [raise_for_status, h4, h6]
  · intro s c h hs
    unfold download_current_catalogue
    rw [h]
    simp [raise_for_status, hs]

theorem C7_download_raises_or_returns_witness :
    download_current_catalogue envDown404 = .error (.httpError 404) ∧
    download_current_catalogue envDownOk = .ok (.noChildren "A" (some "a")) :=
  ⟨(C7_download_raises_or_returns Nat envDown404 envDown404).2.1 404 none rfl
      (by decide) (by decide),
    (C7_download_raises_or_returns Nat envDownOk envDownOk).2.2.1 200
      (.noChildren "A" (some "a")) rfl (by decide)⟩

/-- C3 fails on the code: in `envC3` the single category's product request
returns HTTP status 404, yet `parse_product_cards` does not fail — the
404 response's body is extracted as a successful product listing and the
pipeline runs to completion (`main` reports no error and reaches the
spreadsheet write). -/
theorem C3_counterexample :
    envC3.products "cat1" = .response 404 (some ⟨some [7]⟩) ∧
    parse_product_cards envC3 [] = .ok [7] ∧
    (WildBerriesParser.main envC3).2 = none ∧
    (WildBerriesParser.main envC3).1.excelWritten = true := by
  refine ⟨rfl, rfl, rfl, rfl⟩

/-- C3 amended: `parse_product_cards` never inspects the HTTP status of a
product-listing response: replacing the statuses of all product responses
arbitrarily (keeping whether each request raised a network error and every
response body unchanged) leaves its result unchanged, so a non-success
status whose body decodes with a `'products'` field is treated as a
successful product listing; only a raised network error, an undecodable
body, or a missing `'products'` field makes it fail. -/
theorem C3_status_never_inspected (P : Type) (env env2 : Env P)
    (hcat : env.catalogue 0 = env2.catalogue 0)
    (hprod : ∀ u, respBody (env.products u) = respBody (env2.products u))
    (acc : List P) :
    parse_product_cards env acc = parse_product_cards env2 acc := by
  have hdc := download_congr env env2 hcat
  cases hdl : download_current_catalogue env2 with
  | error e =>
    have hdl1 : download_current_catalogue env = .error e := hdc.trans hdl
    unfold parse_product_cards
    simp only [hdl, hdl1]
  | ok root =>
    have hdl1 : download_current_catalogue env = .ok root := hdc.trans hdl
    cases hpc : process_catalogue root with
    | none =>
      unfold parse_product_cards
      simp only [hdl, hdl1, hpc]
    | some catalogue =>
      unfold parse_product_cards
      simp only [hdl, hdl1, hpc]
      exact parse_loop_congr env env2 hprod catalogue acc

theorem C3_status_never_inspected_witness :
    parse_product_cards envC3 [] = parse_product_cards envC3ok [] :=
  C3_status_never_inspected Nat envC3 envC3ok rfl
    (fun u => by
      by_cases h : u = "cat1" <;> simp [envC3, envC3ok, respBody, h]) []

theorem parse_product_cards_unfold {P : Type} (env : Env P) (root : Category)
    (entries : List Entry) (acc : List P)
    (hdl : download_current_catalogue env = .ok root)
    (hproc : process_catalogue root = some entries) :
    parse_product_cards env acc = parse_loop env entries acc := by
  unfold parse_product_cards
  simp only [hdl, hproc]

/-- C4: if some flattened category's product-listing response decodes to a
JSON object lacking the `'products'` key, `parse_product_cards` raises an
error which propagates unhandled through `main`: the run halts with an
error before any sink write — no record is inserted into the database and
the spreadsheet write is never reached. -/
theorem C4_missing_products_halts (P : Type) (env : Env P) (root : Category)
    (entries : List Entry) (c : Entry)
    (hdl : download_current_catalogue env = .ok root)
    (hproc : process_catalogue root = some entries)
    (hmem : c ∈ entries)
    (hmiss : missingProducts (env.products c.url) = true) :
    (∃ e, parse_product_cards env [] = .error e) ∧
    (WildBerriesParser.main env).1.dbInserts = [] ∧
    (WildBerriesParser.main env).1.excelWritten = false ∧
    (WildBerriesParser.main env).2.isSome = true := by
  obtain ⟨e, he⟩ := parse_loop_error_of_missing env entries [] c hmem hmiss
  have hp : parse_product_cards env [] = .error e := by
    rw [parse_product_cards_unfold env root entries [] hdl hproc]
    exact he
  refine ⟨⟨e, hp⟩, ?_, ?_, ?_⟩ <;> simp [WildBerriesParser.main, hp]

theorem C4_missing_products_halts_witness :
    (∃ e, parse_product_cards envC4 [] = .error e) ∧
    (WildBerriesParser.main envC4).1.dbInserts = [] ∧
    (WildBerriesParser.main envC4).1.excelWritten = false ∧
    (WildBerriesParser.main envC4).2.isSome = true :=
  C4_missing_products_halts Nat envC4 (.noChildren "Cat" (some "cat1"))
    [⟨"Cat", "cat1"⟩] ⟨"Cat", "cat1"⟩ rfl rfl (by decide) (by decide)

/-- C5: when every flattened category's product request yields a decoded
body with a `'products'` list, `parse_product_cards` succeeds and the
resulting collection is the previous collection followed by the in-order
concatenation of each category's products list — category iteration order
first, within-category response order second, with no deduplication. -/
theorem C5_products_concatenated (P : Type) (env : Env P) (root : Category)
    (entries : List Entry) (acc : List P)
    (hdl : download_current_catalogue env = .ok root)
    (hproc : process_catalogue root = some entries)
    (hok : ∀ c ∈ entries, ∃ s ps,
      env.products c.url = .response s (some ⟨some ps⟩)) :
    parse_product_cards env acc =
      .ok (acc ++ (entries.map (fun c => productsOf (env.products c.url))).flatten) := by
  rw [parse_product_cards_unfold env root entries acc hdl hproc]
  exact parse_loop_all_ok env entries acc hok

theorem C5_products_concatenated_witness :
    parse_product_cards envC5 [] =
      .ok ([] ++ (([(⟨"R -> A", "c1"⟩ : Entry), ⟨"R -> B", "c2"⟩]).map
        (fun c => productsOf (envC5.products c.url))).flatten) :=
  C5_products_concatenated Nat envC5
    (.withChildren "R"
      [ .noChildren "A" (some "c1"), .noChildren "B" (some "c2") ] none)
    [⟨"R -> A", "c1"⟩, ⟨"R -> B", "c2"⟩] [] rfl rfl
    (fun c hc => by
      rcases List.mem_cons.mp hc with rfl | hc2
      · exact ⟨200, [1, 2], rfl⟩
      · rcases List.mem_cons.mp hc2 with rfl | hc3
        · exact ⟨200, [3], rfl⟩
        · cases hc3)

theorem envC5_result : parse_product_cards envC5 [] = .ok [1, 2, 3] := rfl

/-- C6: whenever the database write fails (after any number of successful
per-record inserts), `write_to_excel` is never invoked: `main` halts with
the database error and the spreadsheet write is never reached. -/
theorem C6_db_failure_blocks_excel (P : Type) (env : Env P) (cards : List P)
    (hp : parse_product_cards env [] = .ok cards)
    (hdb : (write_to_database env cards).2.isSome = true) :
    (WildBerriesParser.main env).1.excelWritten = false ∧
    (WildBerriesParser.main env).2 = (write_to_database env cards).2 := by
  unfold WildBerriesParser.main
  rcases hw : write_to_database env cards with ⟨inserted, err⟩
  cases err with
  | none => rw [hw] at hdb; simp at hdb
  | some e => simp [hp, hw]

theorem C6_db_failure_blocks_excel_witness :
    (WildBerriesParser.main envC6).1.excelWritten = false ∧
    (WildBerriesParser.main envC6).2 = (write_to_database envC6 [5, 6]).2 :=
  C6_db_failure_blocks_excel Nat envC6 [5, 6] rfl rfl

theorem envC6_run :
    WildBerriesParser.main envC6 = (⟨[5, 6], [5], false⟩, some .dbError) := rfl

/-- C10: `parse_product_cards` only extends the accumulated
`product_cards` attribute: if a first run (from the empty collection)
yields `l1` and a fresh run against the second world yields `l2`, then
running `parse_product_cards` a second time on the same instance — that
is, starting from the accumulated `l1` — yields exactly `l1 ++ l2`: the
first run's records, unchanged and in order, followed by the second run's
records, duplicates preserved. -/
theorem C10_parse_append_only (P : Type) (env1 env2 : Env P) (l1 l2 : List P)
    (h1 : parse_product_cards env1 [] = .ok l1)
    (h2 : parse_product_cards env2 [] = .ok l2) :
    parse_product_cards env2 l1 = .ok (l1 ++ l2) := by
  cases hdl : download_current_catalogue env2 with
  | error e =>
    have hbad : parse_product_cards env2 [] = .error e := by
      unfold parse_product_cards
      simp only [hdl]
    rw [hbad] at h2
    cases h2
  | ok root =>
    cases hpc : process_catalogue root with
    | none =>
      have hbad : parse_product_cards env2 [] = .error (.keyError "url") := by
        unfold parse_product_cards
        simp only [hdl, hpc]
      rw [hbad] at h2
      cases h2
    | some catalogue =>
      rw [parse_product_cards_unfold env2 root catalogue [] hdl hpc] at h2
      rw [parse_product_cards_unfold env2 root catalogue l1 hdl hpc]
      rw [parse_loop_shift env2 catalogue l1, h2]

theorem C10_parse_append_only_witness :
    parse_product_cards envC5 [1, 2, 3] = .ok ([1, 2, 3] ++ [1, 2, 3]) :=
  C10_parse_append_only Nat envC5 envC5 [1, 2, 3] [1, 2, 3] rfl rfl
